import Mathlib

/-!
Shallow embedding of `src/main.go` of opsnoopop/api_go_postgresql: a minimal
HTTP service with three handlers (root, create-user, get-user) over a
relational `users` table.  Handlers are embedded as pure functions from the
request data (method, path, decoded body) and the outcome of their single
persistence call to an HTTP response; the persistence layer (PostgreSQL) is
external to the repository and is modelled both as an abstract outcome oracle
and as an in-memory table for round-trip claims.
-/

namespace ApiGo

/-- JSON scalar values appearing in this service's response bodies:
strings and integers only. -/
inductive Jv where
  | s (v : String)
  | i (v : Int)
deriving DecidableEq, Repr

/-- A JSON object body, as a field-name/value association list
(field order as written in the Go map literals). -/
abbrev JBody := List (String × Jv)

/-- An HTTP response as produced by `jsonWrite` in `main.go`:
a status code and a JSON object body (Content-Type is always
application/json and is not modelled separately). -/
structure Response where
  status : Nat
  body : JBody
deriving DecidableEq, Repr

/-- Body `{"error": msg}`, as in `map[string]string{"error": ...}`. -/
def errBody (msg : String) : JBody := [("error", Jv.s msg)]

/-- The decoded request body for POST /users (`createUserReq` in main.go). -/
structure createUserReq where
  Username : String
  Email : String
deriving DecidableEq, Repr

/-- Whitespace as recognised by Go's `unicode.IsSpace` (used by
`strings.TrimSpace`): '\t' '\n' '\v' '\f' '\r' ' ', NEL, NBSP, and the
Unicode space separators. -/
def goIsSpace (c : Char) : Bool :=
  [9, 10, 11, 12, 13, 32, 0x85, 0xA0, 0x1680,
   0x2028, 0x2029, 0x202F, 0x205F, 0x3000].contains c.toNat
  || (0x2000 ≤ c.toNat && c.toNat ≤ 0x200A)

/-- Go's `strings.TrimSpace`: drop leading and trailing whitespace. -/
def trimSpace (s : String) : String :=
  ⟨(((s.data.dropWhile goIsSpace).reverse).dropWhile goIsSpace).reverse⟩

/-- If `pre` is a prefix of `s`, return `some` of the remainder,
else `none` (helper for Go's `strings.TrimPrefix` / `strings.HasPrefix`). -/
def dropPre : List Char → List Char → Option (List Char)
  | [], s => some s
  | _ :: _, [] => none
  | p :: ps, c :: cs => if p = c then dropPre ps cs else none

/-- Go's `strings.HasPrefix`. -/
def hasPre (s pre : String) : Bool :=
  (dropPre pre.data s.data).isSome

/-- Go's `strings.TrimPrefix`: remove `pre` from the front of `s`
when present, otherwise return `s` unchanged. -/
def goTrimPre (s pre : String) : List Char :=
  match dropPre pre.data s.data with
  | some rest => rest
  | none => s.data

/-- Go's `strings.Split` on a one-character separator: the list of
(possibly empty) chunks between separators; always non-empty. -/
def goSplit (sep : Char) : List Char → List (List Char)
  | [] => [[]]
  | c :: rest =>
    if c = sep then [] :: goSplit sep rest
    else
      match goSplit sep rest with
      | [] => [[c]]
      | h :: t => (c :: h) :: t

/-- Numeric value of a non-empty all-digit character list, else `none`. -/
def parseDigits (cs : List Char) : Option Nat :=
  match cs with
  | [] => none
  | _ =>
    if cs.all Char.isDigit then
      some (cs.foldl (fun a c => a * 10 + (c.toNat - 48)) 0)
    else none

/-- The digits-and-range part of `strconv.Atoi`: the signed value of a
non-empty digit string, provided it is within the int64 range of a 64-bit
platform's `int`. -/
def atoiSigned (sign : Int) (ds : List Char) : Option Int :=
  (parseDigits ds).bind fun n =>
    let v : Int := sign * (n : Int)
    if -(2 ^ 63) ≤ v ∧ v ≤ 2 ^ 63 - 1 then some v else none

/-- Go's `strconv.Atoi` on a 64-bit platform: optional single sign, then
one or more decimal digits, value within the int64 range; `none` models
a parse error. -/
def atoiL (cs : List Char) : Option Int :=
  match cs with
  | [] => none
  | c :: rest =>
    if c = '+' then atoiSigned 1 rest
    else if c = '-' then atoiSigned (-1) rest
    else atoiSigned 1 (c :: rest)

/-- `strconv.Atoi` on a `String`. -/
def atoi (s : String) : Option Int := atoiL s.data

/-- Outcome of the single INSERT issued by `createUser`: the generated
`user_id` on success, or the persistence layer's raw error text. -/
inductive InsertResult where
  | ok (id : Int)
  | fail (msg : String)
deriving DecidableEq, Repr

/-- Outcome of the single SELECT issued by `getUser`: a matching row,
`sql.ErrNoRows`, or any other persistence error with its raw text. -/
inductive SelectResult where
  | row (user_id : Int) (username email : String)
  | noRows
  | fail (msg : String)
deriving DecidableEq, Repr

/-- A persistence call a handler may issue, with the arguments it binds. -/
inductive DbCall where
  | insertCall (username email : String)
  | selectCall (id : Int)
deriving DecidableEq, Repr

/-- The validation phase of `createUser` (main.go lines 53-62): `none`
models a `json.Decode` error (400 invalid JSON); then both fields must be
non-empty after `strings.TrimSpace` (else 400 required).  On success the
untrimmed `(username, email)` pair is passed on to the INSERT. -/
def createUserStep1 (decoded : Option createUserReq) :
    Sum Response (String × String) :=
  match decoded with
  | none => Sum.inl ⟨400, errBody "invalid JSON"⟩
  | some req =>
    if trimSpace req.Username = "" ∨ trimSpace req.Email = "" then
      Sum.inl ⟨400, errBody "username and email are required"⟩
    else
      Sum.inr (req.Username, req.Email)

/-- The response phase of `createUser` (main.go lines 73-82): a failed
INSERT yields 500 with the raw error text in `detail`; success yields 201
with the confirmation message and the new `user_id`. -/
def createUserRespond (r : InsertResult) : Response :=
  match r with
  | .fail msg => ⟨500, [("error", Jv.s "Database error"), ("detail", Jv.s msg)]⟩
  | .ok id => ⟨201, [("message", Jv.s "User created successfully"),
                     ("user_id", Jv.i id)]⟩

/-- The full `createUser` handler, with the INSERT outcome supplied by the
persistence oracle `ins` applied to the bound arguments. -/
def createUser (decoded : Option createUserReq)
    (ins : String → String → InsertResult) : Response :=
  match createUserStep1 decoded with
  | Sum.inl resp => resp
  | Sum.inr (u, e) => createUserRespond (ins u e)

/-- The persistence calls `createUser` issues for a given decoded body. -/
def createUserCalls (decoded : Option createUserReq) : List DbCall :=
  match createUserStep1 decoded with
  | Sum.inl _ => []
  | Sum.inr (u, e) => [DbCall.insertCall u e]

/-- The validation phase of `getUser` (main.go lines 84-94): split the path
after the `/users/` prefix on '/', reject an empty list or an empty first
segment (400 Invalid user_id), then `strconv.Atoi` the first segment,
rejecting a parse error likewise.  On success the parsed id is passed on
to the SELECT. -/
def getUserStep1 (path : String) : Sum Response Int :=
  let parts := goSplit '/' (goTrimPre path "/users/")
  match parts with
  | [] => Sum.inl ⟨400, errBody "Invalid user_id"⟩
  | p0 :: _ =>
    if p0 = [] then Sum.inl ⟨400, errBody "Invalid user_id"⟩
    else
      match atoiL p0 with
      | none => Sum.inl ⟨400, errBody "Invalid user_id"⟩
      | some id => Sum.inr id

/-- The response phase of `getUser` (main.go lines 109-122):
`sql.ErrNoRows` yields 404 User not found; any other error yields 500 with
the raw error text; a row yields 200 with its three columns. -/
def getUserRespond (r : SelectResult) : Response :=
  match r with
  | .noRows => ⟨404, errBody "User not found"⟩
  | .fail msg => ⟨500, [("error", Jv.s "Database error"), ("detail", Jv.s msg)]⟩
  | .row uid un em => ⟨200, [("user_id", Jv.i uid), ("username", Jv.s un),
                             ("email", Jv.s em)]⟩

/-- The full `getUser` handler, with the SELECT outcome supplied by the
persistence oracle `sel` applied to the parsed id. -/
def getUser (path : String) (sel : Int → SelectResult) : Response :=
  match getUserStep1 path with
  | Sum.inl resp => resp
  | Sum.inr id => getUserRespond (sel id)

/-- The persistence calls `getUser` issues for a given path. -/
def getUserCalls (path : String) : List DbCall :=
  match getUserStep1 path with
  | Sum.inl _ => []
  | Sum.inr id => [DbCall.selectCall id]

/-- The `handleRoot` handler (main.go lines 34-40): 200 with the greeting
for exactly `GET /`, else 404 Not Found. -/
def handleRoot (method path : String) : Response :=
  if method ≠ "GET" ∨ path ≠ "/" then ⟨404, errBody "Not Found"⟩
  else ⟨200, [("message", Jv.s "Hello World from Go")]⟩

/-- The `handleUsers` handler (main.go lines 42-51): POST with exact path
`/users` dispatches to `createUser`, GET with path prefix `/users/` to
`getUser`, anything else to 404 Not Found. -/
def handleUsers (method path : String) (decoded : Option createUserReq)
    (ins : String → String → InsertResult) (sel : Int → SelectResult) :
    Response :=
  if method = "POST" ∧ path = "/users" then createUser decoded ins
  else if method = "GET" ∧ hasPre path "/users/" then getUser path sel
  else ⟨404, errBody "Not Found"⟩

/-- Which registered handler a path is dispatched to. -/
inductive Routed where
  | root
  | users
deriving DecidableEq, Repr

/-- Modelled from the spec and Go's net/http documentation: the `ServeMux`
of `main` with the three registered patterns `/` (root), `/users` (exact)
and `/users/` (subtree) dispatches by longest matching pattern: `/users`
exactly and every path under `/users/` go to `handleUsers`, everything
else to `handleRoot`. -/
def muxDispatch (path : String) : Routed :=
  if path = "/users" then Routed.users
  else if hasPre path "/users/" then Routed.users
  else Routed.root

/-- The whole server: mux dispatch followed by the chosen handler. -/
def serve (method path : String) (decoded : Option createUserReq)
    (ins : String → String → InsertResult) (sel : Int → SelectResult) :
    Response :=
  match muxDispatch path with
  | Routed.root => handleRoot method path
  | Routed.users => handleUsers method path decoded ins sel

/-- One row of the `users` table. -/
structure UserRow where
  user_id : Int
  username : String
  email : String
deriving DecidableEq, Repr

/-- Modelled from the spec: the persistence layer (a PostgreSQL table,
external to the repository) as an in-memory table with an auto-generated
integer primary key: the rows and the next key the sequence will assign. -/
structure Db where
  rows : List UserRow
  nextId : Int
deriving DecidableEq, Repr

/-- Modelled from the spec: `INSERT INTO users (username, email) VALUES
($1, $2) RETURNING user_id` — append a row keyed by the next sequence
value and return that fresh key. -/
def dbInsert (db : Db) (u e : String) : Int × Db :=
  (db.nextId, ⟨db.rows ++ [⟨db.nextId, u, e⟩], db.nextId + 1⟩)

/-- Modelled from the spec: `SELECT user_id, username, email FROM users
WHERE user_id = $1` — the first row with that key, or `sql.ErrNoRows`. -/
def dbSelect (db : Db) (id : Int) : SelectResult :=
  match db.rows.find? (fun r => r.user_id = id) with
  | some r => SelectResult.row r.user_id r.username r.email
  | none => SelectResult.noRows

/-- Invariant of the sequence-keyed table: the next key is positive and
strictly above every key already present. -/
def DbInv (db : Db) : Prop :=
  0 < db.nextId ∧ ∀ r ∈ db.rows, r.user_id < db.nextId

/-- `createUser` run against the in-memory table: the response together
with the table after the request. -/
def createUserDb (decoded : Option createUserReq) (db : Db) :
    Response × Db :=
  match createUserStep1 decoded with
  | Sum.inl resp => (resp, db)
  | Sum.inr (u, e) =>
    let (id, db2) := dbInsert db u e
    (createUserRespond (InsertResult.ok id), db2)

/-- The body of `getUserStep1` as a function of the computed parts list
(used to factor proofs; `getUserStep1 path` unfolds to this applied to the
split of the trimmed path). -/
def step1FromParts (parts : List (List Char)) : Sum Response Int :=
  match parts with
  | [] => Sum.inl ⟨400, errBody "Invalid user_id"⟩
  | p0 :: _ =>
    if p0 = [] then Sum.inl ⟨400, errBody "Invalid user_id"⟩
    else
      match atoiL p0 with
      | none => Sum.inl ⟨400, errBody "Invalid user_id"⟩
      | some id => Sum.inr id

/-- A sample insert oracle that always succeeds with id 1. -/
def insOk : String → String → InsertResult := fun _ _ => InsertResult.ok 1

/-- A sample insert oracle that always fails. -/
def insErr : String → String → InsertResult := fun _ _ => InsertResult.fail "boom"

/-- A sample select oracle that always reports no rows. -/
def selNone : Int → SelectResult := fun _ => SelectResult.noRows

/-- A sample select oracle that always fails. -/
def selErr : Int → SelectResult := fun _ => SelectResult.fail "boom"

/-! Helper lemmas about the embedded string primitives. -/

theorem dropPre_append (pre rest : List Char) :
    dropPre pre (pre ++ rest) = some rest := by
  induction pre with
  | nil => rfl
  | cons p ps ih => simp [dropPre, ih]

theorem goTrimPre_append (pre seg : String) :
    goTrimPre (pre ++ seg) pre = seg.data := by
  unfold goTrimPre
  rw [String.data_append, dropPre_append]

theorem hasPre_append (pre seg : String) : hasPre (pre ++ seg) pre = true := by
  unfold hasPre
  rw [String.data_append, dropPre_append]
  rfl

theorem goSplit_ne_nil (sep : Char) (s : List Char) : goSplit sep s ≠ [] := by
  cases s with
  | nil => simp [goSplit]
  | cons c rest =>
    by_cases h : c = sep
    · simp [goSplit, h]
    · simp only [goSplit, if_neg h]
      cases goSplit sep rest <;> simp

theorem goSplit_noSep (sep : Char) (s : List Char) (h : ∀ c ∈ s, c ≠ sep) :
    goSplit sep s = [s] := by
  induction s with
  | nil => rfl
  | cons c rest ih =>
    have hc : c ≠ sep := h c (by simp)
    have hrest : ∀ x ∈ rest, x ≠ sep := fun x hx => h x (by simp [hx])
    simp [goSplit, hc, ih hrest]

theorem goSplit_append_sep (sep : Char) (a b : List Char)
    (h : ∀ c ∈ a, c ≠ sep) :
    goSplit sep (a ++ sep :: b) = a :: goSplit sep b := by
  induction a with
  | nil => simp [goSplit]
  | cons c rest ih =>
    have hc : c ≠ sep := h c (by simp)
    have hrest : ∀ x ∈ rest, x ≠ sep := fun x hx => h x (by simp [hx])
    simp [goSplit, hc, ih hrest]

theorem parseDigits_isDigit {cs : List Char} {n : Nat}
    (h : parseDigits cs = some n) : ∀ c ∈ cs, c.isDigit := by
  cases cs with
  | nil => exact absurd h (by simp [parseDigits])
  | cons c rest =>
    by_cases hall : (c :: rest).all Char.isDigit
    · intro x hx
      exact List.all_eq_true.mp hall x hx
    · rw [parseDigits, if_neg hall] at h
      · exact absurd h (by simp)
      · simp

theorem atoiSigned_digits {sign : Int} {ds : List Char} {n : Int}
    (h : atoiSigned sign ds = some n) : ∀ c ∈ ds, c.isDigit := by
  unfold atoiSigned at h
  cases hp : parseDigits ds with
  | none => rw [hp] at h; exact absurd h (by simp)
  | some m => exact parseDigits_isDigit hp

theorem atoiL_ne_sep {cs : List Char} {n : Int} (h : atoiL cs = some n) :
    ∀ c ∈ cs, c ≠ '/' := by
  have hd : ∀ c : Char, c.isDigit → c ≠ '/' := by
    intro c hc hEq
    rw [hEq] at hc
    exact absurd hc (by decide)
  cases cs with
  | nil => simp
  | cons c rest =>
    intro x hx
    by_cases h1 : c = '+'
    · rw [atoiL, if_pos h1] at h
      rcases List.mem_cons.mp hx with rfl | hx'
      · rw [h1]; decide
      · exact hd x (atoiSigned_digits h x hx')
    · by_cases h2 : c = '-'
      · rw [atoiL, if_neg h1, if_pos h2] at h
        rcases List.mem_cons.mp hx with rfl | hx'
        · rw [h2]; decide
        · exact hd x (atoiSigned_digits h x hx')
      · rw [atoiL, if_neg h1, if_neg h2] at h
        exact hd x (atoiSigned_digits h x hx)

theorem getUserStep1_eq (path : String) :
    getUserStep1 path
      = step1FromParts (goSplit '/' (goTrimPre path "/users/")) := rfl

theorem step1FromParts_cons (p0 : List Char) (t : List (List Char)) :
    step1FromParts (p0 :: t) = step1FromParts [p0] := rfl

theorem getUserStep1_append (tail : String) :
    getUserStep1 ("/users/" ++ tail)
      = step1FromParts (goSplit '/' tail.data) := by
  rw [getUserStep1_eq, goTrimPre_append]

theorem getUserStep1_atoi (seg : String) (id : Int) (h : atoi seg = some id) :
    getUserStep1 ("/users/" ++ seg) = Sum.inr id := by
  have h' : atoiL seg.data = some id := h
  have hne : ∀ c ∈ seg.data, c ≠ '/' := atoiL_ne_sep h'
  have hnil : seg.data ≠ [] := by
    intro hd
    rw [hd] at h'
    exact absurd h' (by simp [atoiL])
  rw [getUserStep1_append, goSplit_noSep _ _ hne]
  simp [step1FromParts, hnil, h']

theorem goTrimPre_extra (seg rest : String) :
    goTrimPre ("/users/" ++ seg ++ "/" ++ rest) "/users/"
      = seg.data ++ '/' :: rest.data := by
  unfold goTrimPre
  have hd : ("/users/" ++ seg ++ "/" ++ rest).data
      = "/users/".data ++ (seg.data ++ '/' :: rest.data) := by
    have hslash : "/".data = ['/'] := rfl
    simp [String.data_append, hslash]
  rw [hd, dropPre_append]

theorem getUserStep1_extra (seg rest : String)
    (h : ∀ c ∈ seg.data, c ≠ '/') :
    getUserStep1 ("/users/" ++ seg ++ "/" ++ rest)
      = getUserStep1 ("/users/" ++ seg) := by
  rw [getUserStep1_eq, goTrimPre_extra, getUserStep1_append,
      goSplit_append_sep _ _ _ h, goSplit_noSep _ _ h, step1FromParts_cons]

theorem dbSelect_after_insert (db : Db) (u e : String) (hinv : DbInv db) :
    dbSelect (dbInsert db u e).2 db.nextId = SelectResult.row db.nextId u e := by
  unfold dbSelect dbInsert
  rw [List.find?_append]
  have hnone : db.rows.find? (fun r => r.user_id = db.nextId) = none := by
    rw [List.find?_eq_none]
    intro r hr
    have hlt := hinv.2 r hr
    simp only [decide_eq_true_eq]
    omega
  rw [hnone]
  simp [List.find?]

/-! Claim theorems. -/

/-- C1: for every (username, email) pair whose fields are non-empty after
trimming whitespace, a successful create-user request returns 201 with a
fresh positive user_id (the table's next sequence value, positive and not
previously used), and an immediately following get-user request on that
user_id returns 200 with the same username and email that were
submitted. -/
theorem create_get_round_trip (db : Db) (u e seg : String)
    (hinv : DbInv db)
    (hu : trimSpace u ≠ "") (he : trimSpace e ≠ "")
    (hseg : atoi seg = some db.nextId) :
    (createUserDb (some ⟨u, e⟩) db).1
      = ⟨201, [("message", Jv.s "User created successfully"),
               ("user_id", Jv.i db.nextId)]⟩ ∧
    0 < db.nextId ∧
    (∀ r ∈ db.rows, r.user_id ≠ db.nextId) ∧
    getUser ("/users/" ++ seg) (dbSelect (createUserDb (some ⟨u, e⟩) db).2)
      = ⟨200, [("user_id", Jv.i db.nextId), ("username", Jv.s u),
               ("email", Jv.s e)]⟩ := by
  have hstep : createUserStep1 (some ⟨u, e⟩) = Sum.inr (u, e) := by
    simp [createUserStep1, hu, he]
  have hdb : createUserDb (some ⟨u, e⟩) db
      = (createUserRespond (InsertResult.ok db.nextId), (dbInsert db u e).2) := by
    simp [createUserDb, hstep, dbInsert]
  refine ⟨by rw [hdb]; rfl, hinv.1, ?_, ?_⟩
  · intro r hr
    have := hinv.2 r hr
    omega
  · have h1 := getUserStep1_atoi seg db.nextId hseg
    have h2 := dbSelect_after_insert db u e hinv
    simp [getUser, hdb, h1, h2, getUserRespond]

/-- C1 witness: empty table with next key 1, user ("alice", "a@x.com"),
lookup via path segment "1". -/
theorem create_get_round_trip_witness :
    (createUserDb (some ⟨"alice", "a@x.com"⟩) ⟨[], 1⟩).1
      = ⟨201, [("message", Jv.s "User created successfully"),
               ("user_id", Jv.i 1)]⟩ ∧
    (0 : Int) < 1 ∧
    (∀ r ∈ ([] : List UserRow), r.user_id ≠ 1) ∧
    getUser ("/users/" ++ "1")
        (dbSelect (createUserDb (some ⟨"alice", "a@x.com"⟩) ⟨[], 1⟩).2)
      = ⟨200, [("user_id", Jv.i 1), ("username", Jv.s "alice"),
               ("email", Jv.s "a@x.com")]⟩ :=
  create_get_round_trip ⟨[], 1⟩ "alice" "a@x.com" "1" ⟨by decide, by simp⟩
    (by decide) (by decide) (by decide)

/-- C2: a POST /users body that does not decode yields 400
invalid JSON; a decoded body with username or email empty after trimming
yields 400 "username and email are required"; in both cases the handler
issues no persistence call. -/
theorem create_user_validation (decoded : Option createUserReq)
    (ins : String → String → InsertResult)
    (h : decoded = none ∨ ∃ req, decoded = some req ∧
         (trimSpace req.Username = "" ∨ trimSpace req.Email = "")) :
    createUser decoded ins
      = (if decoded = none then ⟨400, errBody "invalid JSON"⟩
         else ⟨400, errBody "username and email are required"⟩) ∧
    createUserCalls decoded = [] := by
  rcases h with rfl | ⟨req, rfl, hreq⟩
  · exact ⟨rfl, rfl⟩
  · have hstep : createUserStep1 (some req)
        = Sum.inl ⟨400, errBody "username and email are required"⟩ := by
      rcases hreq with h0 | h0 <;> simp [createUserStep1, h0]
    simp [createUser, createUserCalls, hstep]

/-- C2 witness: a whitespace-only username is rejected with 400 and no
persistence call. -/
theorem create_user_validation_witness :
    createUser (some ⟨" ", "b@x.com"⟩) insOk
      = ⟨400, errBody "username and email are required"⟩ ∧
    createUserCalls (some ⟨" ", "b@x.com"⟩) = [] := by
  have h := create_user_validation (some ⟨" ", "b@x.com"⟩) insOk
    (Or.inr ⟨⟨" ", "b@x.com"⟩, rfl, Or.inl (by decide)⟩)
  simpa using h

/-- C3: a POST /users request that passes both validation steps issues
exactly one INSERT carrying the submitted fields, and a successful INSERT
yields 201 with the confirmation message and the new user_id. -/
theorem create_user_success (req : createUserReq)
    (ins : String → String → InsertResult) (id : Int)
    (hu : trimSpace req.Username ≠ "") (he : trimSpace req.Email ≠ "")
    (hins : ins req.Username req.Email = InsertResult.ok id) :
    createUserCalls (some req)
      = [DbCall.insertCall req.Username req.Email] ∧
    createUser (some req) ins
      = ⟨201, [("message", Jv.s "User created successfully"),
               ("user_id", Jv.i id)]⟩ := by
  have hstep : createUserStep1 (some req)
      = Sum.inr (req.Username, req.Email) := by
    simp [createUserStep1, hu, he]
  exact ⟨by simp [createUserCalls, hstep],
         by simp [createUser, hstep, hins, createUserRespond]⟩

/-- C3 witness: creating ("alice", "a@x.com") with an insert oracle that
returns id 1. -/
theorem create_user_success_witness :
    createUserCalls (some ⟨"alice", "a@x.com"⟩)
      = [DbCall.insertCall "alice" "a@x.com"] ∧
    createUser (some ⟨"alice", "a@x.com"⟩) insOk
      = ⟨201, [("message", Jv.s "User created successfully"),
               ("user_id", Jv.i 1)]⟩ :=
  create_user_success ⟨"alice", "a@x.com"⟩ insOk 1 (by decide) (by decide) rfl

/-- C4: for a GET /users/{id} request with a valid integer id, a no-rows
SELECT outcome yields 404 with body error "User not found", and the 404
status occurs exactly when the outcome is no-rows (never for a genuine
persistence failure, which yields 500, nor for a matched row, which
yields 200). -/
theorem get_user_not_found (path : String) (id : Int)
    (sel : Int → SelectResult)
    (hparse : getUserStep1 path = Sum.inr id) :
    (sel id = SelectResult.noRows →
      getUser path sel = ⟨404, errBody "User not found"⟩) ∧
    ((getUser path sel).status = 404 ↔ sel id = SelectResult.noRows) := by
  have hget : getUser path sel = getUserRespond (sel id) := by
    simp [getUser, hparse]
  rw [hget]
  constructor
  · intro h
    rw [h]
    rfl
  · cases hsel : sel id <;> simp [getUserRespond, hsel]

/-- C4 witness: GET /users/9999 against an oracle with no rows. -/
theorem get_user_not_found_witness :
    (selNone 9999 = SelectResult.noRows →
      getUser "/users/9999" selNone = ⟨404, errBody "User not found"⟩) ∧
    ((getUser "/users/9999" selNone).status = 404
      ↔ selNone 9999 = SelectResult.noRows) :=
  get_user_not_found "/users/9999" 9999 selNone (by decide)

/-- C5: for a GET request on /users/<tail>, if the first segment of the
tail is empty or does not parse as an integer, the handler responds 400
with body error "Invalid user_id" and issues no persistence call. -/
theorem get_user_invalid_id (tail : String) (sel : Int → SelectResult)
    (h : (goSplit '/' tail.data).headD [] = []
         ∨ atoiL ((goSplit '/' tail.data).headD []) = none) :
    getUser ("/users/" ++ tail) sel = ⟨400, errBody "Invalid user_id"⟩ ∧
    getUserCalls ("/users/" ++ tail) = [] := by
  have hstep : getUserStep1 ("/users/" ++ tail)
      = Sum.inl ⟨400, errBody "Invalid user_id"⟩ := by
    rw [getUserStep1_append]
    cases hsp : goSplit '/' tail.data with
    | nil => exact absurd hsp (goSplit_ne_nil _ _)
    | cons p0 t =>
      rw [hsp] at h
      simp only [List.headD_cons] at h
      rcases h with h0 | h0
      · simp [step1FromParts, h0]
      · by_cases hp : p0 = []
        · simp [step1FromParts, hp]
        · simp [step1FromParts, hp, h0]
  exact ⟨by simp [getUser, hstep], by simp [getUserCalls, hstep]⟩

/-- C5 witness: GET /users/notanumber is rejected with 400 and no
persistence call. -/
theorem get_user_invalid_id_witness :
    getUser ("/users/" ++ "notanumber") selNone
      = ⟨400, errBody "Invalid user_id"⟩ ∧
    getUserCalls ("/users/" ++ "notanumber") = [] :=
  get_user_invalid_id "notanumber" selNone (Or.inr (by decide))

/-- C6: in both handlers, a persistence failure other than the no-rows
signal yields 500 with body error "Database error" and detail equal to
the persistence layer's raw error text. -/
theorem persistence_failure_shape (req : createUserReq)
    (ins : String → String → InsertResult) (msg : String)
    (hu : trimSpace req.Username ≠ "") (he : trimSpace req.Email ≠ "")
    (hins : ins req.Username req.Email = InsertResult.fail msg)
    (path : String) (id : Int) (sel : Int → SelectResult) (msg2 : String)
    (hparse : getUserStep1 path = Sum.inr id)
    (hsel : sel id = SelectResult.fail msg2) :
    createUser (some req) ins
      = ⟨500, [("error", Jv.s "Database error"), ("detail", Jv.s msg)]⟩ ∧
    getUser path sel
      = ⟨500, [("error", Jv.s "Database error"), ("detail", Jv.s msg2)]⟩ := by
  have hstep : createUserStep1 (some req)
      = Sum.inr (req.Username, req.Email) := by
    simp [createUserStep1, hu, he]
  exact ⟨by simp [createUser, hstep, hins, createUserRespond],
         by simp [getUser, hparse, hsel, getUserRespond]⟩

/-- C6 witness: both handlers against oracles failing with "boom". -/
theorem persistence_failure_shape_witness :
    createUser (some ⟨"alice", "a@x.com"⟩) insErr
      = ⟨500, [("error", Jv.s "Database error"), ("detail", Jv.s "boom")]⟩ ∧
    getUser "/users/5" selErr
      = ⟨500, [("error", Jv.s "Database error"), ("detail", Jv.s "boom")]⟩ :=
  persistence_failure_shape ⟨"alice", "a@x.com"⟩ insErr "boom"
    (by decide) (by decide) rfl "/users/5" 5 selErr "boom" (by decide) rfl

/-- C7: the server dispatches GET / to the root greeting, POST /users to
the create handler, GET with path prefix /users/ to the get handler, and
responds 404 body error "Not Found" to every other method/path
combination. -/
theorem routing_totality (method path : String) (decoded : Option createUserReq)
    (ins : String → String → InsertResult) (sel : Int → SelectResult) :
    (method = "GET" ∧ path = "/" →
      serve method path decoded ins sel
        = ⟨200, [("message", Jv.s "Hello World from Go")]⟩) ∧
    (method = "POST" ∧ path = "/users" →
      serve method path decoded ins sel = createUser decoded ins) ∧
    (method = "GET" ∧ hasPre path "/users/" = true →
      serve method path decoded ins sel = getUser path sel) ∧
    (¬(method = "GET" ∧ path = "/") →
     ¬(method = "POST" ∧ path = "/users") →
     ¬(method = "GET" ∧ hasPre path "/users/" = true) →
      serve method path decoded ins sel = ⟨404, errBody "Not Found"⟩) := by
  refine ⟨?_, ?_, ?_, ?_⟩
  · rintro ⟨rfl, rfl⟩
    rfl
  · rintro ⟨rfl, rfl⟩
    rfl
  · rintro ⟨rfl, hp⟩
    have hne : path ≠ "/users" := by
      intro hEq
      rw [hEq] at hp
      exact absurd hp (by decide)
    have hmux : muxDispatch path = Routed.users := by
      simp [muxDispatch, hne, hp]
    simp [serve, hmux, handleUsers, hne, hp]
  · intro h1 h2 h3
    by_cases hpu : path = "/users"
    · subst hpu
      have hm : method ≠ "POST" := fun hm => h2 ⟨hm, rfl⟩
      have hfp : hasPre "/users" "/users/" = false := by decide
      simp [serve, muxDispatch, handleUsers, hm, hfp]
    · by_cases hpre : hasPre path "/users/" = true
      · have hm : method ≠ "GET" := fun hm => h3 ⟨hm, hpre⟩
        have hmux : muxDispatch path = Routed.users := by
          simp [muxDispatch, hpu, hpre]
        simp [serve, hmux, handleUsers, hm, hpu]
      · have hmux : muxDispatch path = Routed.root := by
          simp [muxDispatch, hpu, hpre]
        have hcond : method ≠ "GET" ∨ path ≠ "/" := by
          by_cases hg : method = "GET"
          · exact Or.inr fun hpp => h1 ⟨hg, hpp⟩
          · exact Or.inl hg
        rw [serve, hmux, handleRoot, if_pos hcond]

/-- C7 witness: DELETE /users/1 is not wired to any handler and yields
404 Not Found. -/
theorem routing_totality_witness :
    serve "DELETE" "/users/1" none insOk selNone
      = ⟨404, errBody "Not Found"⟩ :=
  (routing_totality "DELETE" "/users/1" none insOk selNone).2.2.2
    (by decide) (by decide) (by decide)

/-- C8: a GET path /users/<seg>/<rest> with extra segments after the
first is handled identically to /users/<seg>: only the first segment is
used as the identifier and the rest is ignored. -/
theorem extra_segment_ignored (seg rest : String) (sel : Int → SelectResult)
    (h : ∀ c ∈ seg.data, c ≠ '/') :
    getUser ("/users/" ++ seg ++ "/" ++ rest) sel
      = getUser ("/users/" ++ seg) sel ∧
    getUserCalls ("/users/" ++ seg ++ "/" ++ rest)
      = getUserCalls ("/users/" ++ seg) := by
  have hstep := getUserStep1_extra seg rest h
  exact ⟨by simp [getUser, hstep], by simp [getUserCalls, hstep]⟩

/-- C8 witness: /users/1/extra resolves identically to /users/1. -/
theorem extra_segment_ignored_witness :
    getUser ("/users/" ++ "1" ++ "/" ++ "extra") selNone
      = getUser ("/users/" ++ "1") selNone ∧
    getUserCalls ("/users/" ++ "1" ++ "/" ++ "extra")
      = getUserCalls ("/users/" ++ "1") :=
  extra_segment_ignored "1" "extra" selNone (by decide)

/-- C10: trimming is used only for the emptiness check; the INSERT
receives the original untrimmed username and email, the stored row keeps
them exactly as submitted, and a subsequent SELECT on the new id returns
them with their surrounding whitespace intact. -/
theorem untrimmed_persistence (db : Db) (req : createUserReq)
    (hinv : DbInv db)
    (hu : trimSpace req.Username ≠ "") (he : trimSpace req.Email ≠ "") :
    createUserCalls (some req)
      = [DbCall.insertCall req.Username req.Email] ∧
    (createUserDb (some req) db).2.rows
      = db.rows ++ [⟨db.nextId, req.Username, req.Email⟩] ∧
    dbSelect (createUserDb (some req) db).2 db.nextId
      = SelectResult.row db.nextId req.Username req.Email := by
  have hstep : createUserStep1 (some req)
      = Sum.inr (req.Username, req.Email) := by
    simp [createUserStep1, hu, he]
  have hdb : (createUserDb (some req) db).2
      = (dbInsert db req.Username req.Email).2 := by
    simp [createUserDb, hstep]
  refine ⟨by simp [createUserCalls, hstep], ?_, ?_⟩
  · rw [hdb]
    rfl
  · rw [hdb]
    exact dbSelect_after_insert db req.Username req.Email hinv

/-- C10 witness: " alice " and " a@x.com " are stored and returned with
their surrounding whitespace intact. -/
theorem untrimmed_persistence_witness :
    createUserCalls (some ⟨" alice ", " a@x.com "⟩)
      = [DbCall.insertCall " alice " " a@x.com "] ∧
    (createUserDb (some ⟨" alice ", " a@x.com "⟩) ⟨[], 1⟩).2.rows
      = [] ++ [⟨1, " alice ", " a@x.com "⟩] ∧
    dbSelect (createUserDb (some ⟨" alice ", " a@x.com "⟩) ⟨[], 1⟩).2 1
      = SelectResult.row 1 " alice " " a@x.com " :=
  untrimmed_persistence ⟨[], 1⟩ ⟨" alice ", " a@x.com "⟩ ⟨by decide, by simp⟩
    (by decide) (by decide)

end ApiGo
